import Mathlib

/-!
Verification development for the MeshSentinel mesh node (`server.py`).

The Python module keeps its state in dictionaries guarded by locks; every
operation the claims mention runs entirely inside one critical section, so
each is embedded as a pure function from the relevant state to the new
state (plus the observable outputs: HTTP status, the frame handed to
`relay_to_peers`, the `/sync` payload).  Python `dict`s become association
lists (`alistGet` / `alistSet`), Python `set`s become `Finset String`,
`time.time()` becomes an explicit `Int` parameter.
-/

namespace MeshSentinel

/-- Dictionary lookup on an association list (Python `d.get(k)` / `k in d`). -/
def alistGet {α : Type} (l : List (String × α)) (k : String) : Option α :=
  match l with
  | [] => none
  | (k2, v) :: rest => if k2 = k then some v else alistGet rest k

/-- Dictionary store on an association list (Python `d[k] = v`): overwrite the
existing binding, or append a fresh one. -/
def alistSet {α : Type} (l : List (String × α)) (k : String) (v : α) :
    List (String × α) :=
  match l with
  | [] => [(k, v)]
  | (k2, v2) :: rest =>
      if k2 = k then (k2, v) :: rest else (k2, v2) :: alistSet rest k v

/-- Constant `PEER_TIMEOUT = 30` from the configuration block. -/
def PEER_TIMEOUT : Int := 30

/-- A wire/in-memory alert packet (the JSON object handled by
`handle_packet`).  Fields read through `packet.get(...)` with a default in
the source are `Option`s here; `type` is `ptype` because `type` is reserved
in Lean. -/
structure Packet where
  event_id : Option String
  ptype : String
  timestamp : Int
  device_id : Option String
  hop_count : Option Nat
  is_authorized_node : Option Bool
  description : String
  location : String
deriving DecidableEq, Repr

/-- One entry of `event_log` (the dict created in `handle_packet`). -/
structure EventRecord where
  packet : Packet
  devices_reached : Finset String
  cross_checks : Finset String
  pending_verify : Bool
  dismissed : Bool
  authorized_node : Bool
  trust : String
  max_hop : Nat
  first_seen : Int
deriving DecidableEq

/-- The `event_log` dict: event_id → record. -/
def EventLog : Type := List (String × EventRecord)

/-- One entry of a `hop_log` edge list (the dict appended in `record_hop`). -/
structure HopEdge where
  from_device : String
  to_device : String
  hop : Nat
  ts : Int
  from_ip : String
  to_ip : String
deriving DecidableEq, Repr

/-- The `hop_log` dict: event_id → list of edges. -/
def HopLog : Type := List (String × List HopEdge)

/-- Trust of one stored record: body of `calculate_trust` once the entry has
been fetched. -/
def entry_trust (entry : EventRecord) : String :=
  if entry.authorized_node then "HIGH"
  else
    let original := (entry.packet.device_id).getD ""
    let checks := entry.cross_checks \ {original}
    let count := checks.card
    if count ≥ 9 then "HIGH"
    else if count ≥ 2 then "MEDIUM"
    else "LOW"

/-- The `calculate_trust(event_id)` function: looks the entry up in `event_log`; a missing
entry reads every field through `.get` defaults (`authorized_node` falsy,
`cross_checks = set()`), which lands in the final `return "LOW"`. -/
def calculate_trust (events : EventLog) (eid : String) : String :=
  match alistGet events eid with
  | some entry => entry_trust entry
  | none => "LOW"

/-- The `record_hop` function: create the edge list on first use, then append the new edge
only when no stored edge already has the same `(from_device, to_device)`
pair. -/
def record_hop (hl : HopLog) (eid from_device to_device : String)
    (hop_num : Nat) (tnow : Int) (from_ip to_ip : String) : HopLog :=
  let hops := (alistGet hl eid).getD []
  let existing := hops.map (fun h => (h.from_device, h.to_device))
  if (from_device, to_device) ∈ existing then hl
  else alistSet hl eid (hops ++
    [{ from_device := from_device, to_device := to_device, hop := hop_num,
       ts := tnow, from_ip := from_ip, to_ip := to_ip }])

/-- Result of one `handle_packet` call: the two state regions it may touch
and the augmented frame handed to `relay_to_peers` (`none` when nothing is
relayed). -/
structure IngestResult where
  events : EventLog
  hops : HopLog
  relayed : Option Packet

/-- The `handle_packet(packet, relay, received_from_ip)` ingest
operation.  `my_device` is the
process constant `MY_DEVICE_ID`, `my_ip` the first local IP, `tnow` the
current time.  Python's `if not eid` drops both a missing/null `event_id`
and the empty string. -/
def handle_packet (events : EventLog) (hops : HopLog)
    (my_device my_ip : String) (tnow : Int)
    (packet : Packet) (relay : Bool) (received_from_ip : String) :
    IngestResult :=
  match packet.event_id with
  | none => ⟨events, hops, none⟩
  | some eid =>
    if eid = "" then ⟨events, hops, none⟩
    else
      let sender_device := (packet.device_id).getD "UNKNOWN"
      let hop_num := (packet.hop_count).getD 0
      let from_peer := received_from_ip ≠ ""
      let hops1 :=
        if from_peer then
          record_hop hops eid sender_device my_device hop_num tnow
            received_from_ip my_ip
        else hops
      match alistGet events eid with
      | some entry =>
          let entry1 :=
            { entry with
              devices_reached := insert sender_device entry.devices_reached }
          ⟨alistSet events eid entry1, hops1, none⟩
      | none =>
          let entry0 : EventRecord :=
            { packet := packet,
              devices_reached := insert my_device {sender_device},
              cross_checks := ∅,
              pending_verify := from_peer,
              dismissed := false,
              authorized_node := (packet.is_authorized_node).getD false,
              trust := "LOW",
              max_hop := hop_num,
              first_seen := tnow }
          let entry1 :=
            if (packet.is_authorized_node).getD false then
              { entry0 with authorized_node := true }
            else entry0
          let events1 := alistSet events eid entry1
          let events2 := alistSet events1 eid
            { entry1 with trust := calculate_trust events1 eid }
          let relayed :=
            if relay then
              some { packet with hop_count := some (hop_num + 1),
                                 device_id := some my_device }
            else none
          ⟨events2, hops1, relayed⟩

/-- Payload of the asynchronous `/sync` push that `verify_event` sends to
every known peer. -/
structure SyncPayload where
  verified_by : String
  trust : String
  cross_checks : Nat
deriving DecidableEq, Repr

/-- Observable outcome of `POST /api/events/<id>/verify`: the new event
table, the HTTP status, the re-broadcast frame handed to `relay_to_peers`,
and the `/sync` payload pushed to peers (`none` on the error paths). -/
structure VerifyResult where
  events : EventLog
  status : Nat
  relayed : Option Packet
  sync_push : Option SyncPayload

/-- The `verify_event(event_id)` handler: 404 when unknown, 400 when this node is the
originator; otherwise add `MY_DEVICE_ID` to `cross_checks`, clear
`pending_verify` and `dismissed`, recompute trust from the updated table,
then re-broadcast the original packet with `hop_count = max_hop + 1` and
`device_id = MY_DEVICE_ID` and push a `/sync` payload. -/
def verify_event (events : EventLog) (my_device : String)
    (event_id : String) : VerifyResult :=
  match alistGet events event_id with
  | none => ⟨events, 404, none, none⟩
  | some entry =>
    let original := (entry.packet.device_id).getD ""
    if my_device = original then ⟨events, 400, none, none⟩
    else
      let entry1 :=
        { entry with
          cross_checks := insert my_device entry.cross_checks,
          pending_verify := false,
          dismissed := false }
      let events1 := alistSet events event_id entry1
      let entry2 := { entry1 with trust := calculate_trust events1 event_id }
      let events2 := alistSet events1 event_id entry2
      let new_trust := entry2.trust
      let cross_count := (entry2.cross_checks \ {original}).card
      let packet :=
        { entry2.packet with
          hop_count := some (entry2.max_hop + 1),
          device_id := some my_device }
      ⟨events2, 200, some packet,
       some { verified_by := my_device, trust := new_trust,
              cross_checks := cross_count }⟩

/-- Outcome of the handlers that only touch the event table. -/
structure UpdateResult where
  events : EventLog
  status : Nat

/-- The `sync_event_verification(event_id)` handler: add the pushed verifier (when
non-empty) to `cross_checks`, store the pushed trust when it is one of the
three levels, then unconditionally overwrite `trust` with the locally
recomputed value. -/
def sync_event_verification (events : EventLog)
    (event_id verified_by new_trust : String) : UpdateResult :=
  match alistGet events event_id with
  | none => ⟨events, 404⟩
  | some entry =>
    let entry1 :=
      if verified_by ≠ "" then
        { entry with cross_checks := insert verified_by entry.cross_checks }
      else entry
    let entry2 :=
      if new_trust = "LOW" ∨ new_trust = "MEDIUM" ∨ new_trust = "HIGH" then
        { entry1 with trust := new_trust }
      else entry1
    let events1 := alistSet events event_id entry2
    let entry3 := { entry2 with trust := calculate_trust events1 event_id }
    ⟨alistSet events1 event_id entry3, 200⟩

/-- The `dismiss_event(event_id)` handler: clear `pending_verify`, set
`dismissed`. -/
def dismiss_event (events : EventLog) (event_id : String) : UpdateResult :=
  match alistGet events event_id with
  | none => ⟨events, 404⟩
  | some entry =>
    ⟨alistSet events event_id
      { entry with pending_verify := false, dismissed := true }, 200⟩

/-- The `authorize_event(event_id)` handler: set `authorized_node`, clear
`pending_verify`, force `trust = "HIGH"`. -/
def authorize_event (events : EventLog) (event_id : String) : UpdateResult :=
  match alistGet events event_id with
  | none => ⟨events, 404⟩
  | some entry =>
    ⟨alistSet events event_id
      { entry with authorized_node := true, pending_verify := false,
                   trust := "HIGH" }, 200⟩

/-- The `get_all_known_peers()` function: auto-discovered entries that are fresh
(`now - ts < PEER_TIMEOUT`) and not a local IP, unioned with the manual
peers that are not a local IP (Python `list(set(alive + manual))`). -/
def get_all_known_peers (discovered_peers : List (String × Int))
    (manual_peers my_ips : List String) (now : Int) : List String :=
  let alive := (discovered_peers.filter
    (fun p => decide (now - p.2 < PEER_TIMEOUT ∧ p.1 ∉ my_ips))).map Prod.fst
  let manual := manual_peers.filter (fun ip => decide (ip ∉ my_ips))
  (alive ++ manual).dedup

/-- The IPs listed as `discovered_peers` in the `GET /api/peers` response
(entries passing the `now - ts < PEER_TIMEOUT` filter). -/
def get_peers_discovered (discovered_peers : List (String × Int))
    (now : Int) : List String :=
  (discovered_peers.filter
    (fun p => decide (now - p.2 < PEER_TIMEOUT))).map Prod.fst

/-- Body of a `POST /api/broadcast` request after the handler has checked
that `event_id`, `type` and `device_id` are present (they are required
fields here); the optional fields mirror `data.get(...)` defaults. -/
structure BroadcastData where
  event_id : String
  btype : String
  device_id : String
  timestamp : Option Int
  is_authorized_node : Option Bool
  description : String
  location : String
deriving DecidableEq, Repr

/-- The packet literal built by the `broadcast` handler: `hop_count = 0`,
`device_id` as supplied by the client, trimmed and truncated free text. -/
def broadcast_build (d : BroadcastData) (tnow : Int) : Packet :=
  { event_id := some d.event_id,
    ptype := d.btype,
    timestamp := (d.timestamp).getD tnow,
    device_id := some d.device_id,
    hop_count := some 0,
    is_authorized_node := some ((d.is_authorized_node).getD false),
    description := (d.description.trim).take 280,
    location := (d.location.trim).take 100 }

/-- The `POST /api/broadcast` handler: build the packet and hand it to
`handle_packet(packet, relay=True)` with no `received_from_ip`. -/
def api_broadcast (events : EventLog) (hops : HopLog)
    (my_device my_ip : String) (tnow : Int) (d : BroadcastData) :
    IngestResult :=
  handle_packet events hops my_device my_ip tnow (broadcast_build d tnow)
    true ""

/-- The event-table mutating operations of the node, with their request
parameters. -/
inductive Op where
  | ingest (packet : Packet) (relay : Bool) (received_from_ip : String)
      (tnow : Int)
  | verify (event_id : String)
  | sync (event_id verified_by trust : String)
  | authorize (event_id : String)
  | dismiss (event_id : String)

/-- The two state regions touched by `Op`s. -/
structure NodeState where
  events : EventLog
  hops : HopLog

/-- One operation applied to the node state (relay frames, HTTP statuses
and sync payloads are observable outputs, not state). -/
def step (my_device my_ip : String) (s : NodeState) (op : Op) : NodeState :=
  match op with
  | .ingest p relay rfip tnow =>
      let r := handle_packet s.events s.hops my_device my_ip tnow p relay rfip
      ⟨r.events, r.hops⟩
  | .verify eid => ⟨(verify_event s.events my_device eid).events, s.hops⟩
  | .sync eid v t =>
      ⟨(sync_event_verification s.events eid v t).events, s.hops⟩
  | .authorize eid => ⟨(authorize_event s.events eid).events, s.hops⟩
  | .dismiss eid => ⟨(dismiss_event s.events eid).events, s.hops⟩

/-- A sequence of operations from a given state. -/
def steps (my_device my_ip : String) (s : NodeState) (ops : List Op) :
    NodeState :=
  ops.foldl (step my_device my_ip) s

/-- A whole run of the node from its startup state (empty tables). -/
def run (my_device my_ip : String) (ops : List Op) : NodeState :=
  steps my_device my_ip ⟨[], []⟩ ops

/-- The record stored by the fresh branch of `handle_packet` (with the
trust recomputation already folded in: the recompute reads the entry just
stored, so it is the pure trust of that entry). -/
def created_record (my_device : String) (tnow : Int) (packet : Packet)
    (from_peer : Bool) : EventRecord :=
  let sender_device := (packet.device_id).getD "UNKNOWN"
  let entry0 : EventRecord :=
    { packet := packet,
      devices_reached := insert my_device {sender_device},
      cross_checks := ∅,
      pending_verify := from_peer,
      dismissed := false,
      authorized_node := (packet.is_authorized_node).getD false,
      trust := "LOW",
      max_hop := (packet.hop_count).getD 0,
      first_seen := tnow }
  let entry1 :=
    if (packet.is_authorized_node).getD false then
      { entry0 with authorized_node := true }
    else entry0
  { entry1 with trust := entry_trust entry1 }

/-- Arguments of one `record_hop` call. -/
structure HopCall where
  event_id : String
  from_device : String
  to_device : String
  hop_num : Nat
  tnow : Int
  from_ip : String
  to_ip : String
deriving DecidableEq, Repr

/-- One `record_hop` call, uncurried over `HopCall`. -/
def record_hop_call (hl : HopLog) (c : HopCall) : HopLog :=
  record_hop hl c.event_id c.from_device c.to_device c.hop_num c.tnow
    c.from_ip c.to_ip

/-- The edge list stored for one event (`hop_log[eid]`, empty when the key
is absent). -/
def hop_edges (hl : HopLog) (eid : String) : List HopEdge :=
  (alistGet hl eid).getD []

/-- The `(from_device, to_device)` pairs of the stored edges of one
event. -/
def hop_pairs (hl : HopLog) (eid : String) : List (String × String) :=
  (hop_edges hl eid).map (fun h => (h.from_device, h.to_device))

/-- Invariant: every stored record's `trust` field is the value of the pure
trust function on the record's own `authorized_node`, `cross_checks` and
original `device_id`. -/
def TrustInvariant (events : EventLog) : Prop :=
  ∀ eid entry, alistGet events eid = some entry →
    entry.trust = entry_trust entry

/-- Invariant: for every event, no two stored hop edges share the same
`(from_device, to_device)` pair. -/
def HopInvariant (hl : HopLog) : Prop :=
  ∀ eid, (hop_pairs hl eid).Nodup

/-- A concrete alert packet, used to instantiate theorems. -/
def demoPacket : Packet :=
  { event_id := some "E1", ptype := "FIRE", timestamp := 0,
    device_id := some "DEVICE-A0000001", hop_count := some 0,
    is_authorized_node := some false, description := "house fire",
    location := "4th st" }

/-- Copy of `demoPacket` relayed on with a higher hop count and a new last
hop. -/
def demoPacket2 : Packet :=
  { demoPacket with hop_count := some 5,
                    device_id := some "DEVICE-C0000003" }

/-- A concrete run: ingest `demoPacket` from a peer, then receive a `/sync`
push for it. -/
def demoRun : NodeState :=
  run "DEVICE-B0000002" "10.0.0.1"
    [Op.ingest demoPacket true "10.0.0.9" 0,
     Op.sync "E1" "DEVICE-V0000001" "HIGH"]

/-- The record `demoRun` stores under `"E1"` (the `/sync` handler added the
verifier and recomputed trust locally, so the pushed `"HIGH"` is gone). -/
def demoEntry : EventRecord :=
  { packet := demoPacket,
    devices_reached := {"DEVICE-B0000002", "DEVICE-A0000001"},
    cross_checks := {"DEVICE-V0000001"},
    pending_verify := true,
    dismissed := false,
    authorized_node := false,
    trust := "LOW",
    max_hop := 0,
    first_seen := 0 }

/-- A dismissed copy of `demoEntry` (the operator pressed "cannot
confirm"). -/
def demoDismissed : EventRecord :=
  { demoEntry with pending_verify := false, dismissed := true }

/-- A concrete `POST /api/broadcast` request body. -/
def demoBroadcast : BroadcastData :=
  { event_id := "E9", btype := "FIRE", device_id := "DEVICE-A0000001",
    timestamp := none, is_authorized_node := none,
    description := "smoke", location := "dorm" }

/-- A concrete `record_hop` call. -/
def demoHop : HopCall :=
  { event_id := "E1", from_device := "DEVICE-A0000001",
    to_device := "DEVICE-B0000002", hop_num := 0, tnow := 0,
    from_ip := "10.0.0.9", to_ip := "10.0.0.1" }

theorem alistGet_alistSet_self {α : Type} (l : List (String × α))
    (k : String) (v : α) : alistGet (alistSet l k v) k = some v := by
  induction l with
  | nil => simp [alistGet, alistSet]
  | cons hd tl ih =>
    obtain ⟨k2, v2⟩ := hd
    by_cases h : k2 = k <;> simp [alistGet, alistSet, h, ih]

theorem alistGet_alistSet_ne {α : Type} (l : List (String × α))
    (k k2 : String) (v : α) (h : k ≠ k2) :
    alistGet (alistSet l k v) k2 = alistGet l k2 := by
  induction l with
  | nil => simp [alistGet, alistSet, h]
  | cons hd tl ih =>
    obtain ⟨k3, v3⟩ := hd
    by_cases h3 : k3 = k
    · subst h3
      simp [alistGet, alistSet, h]
    · simp only [alistSet, if_neg h3]
      by_cases h4 : k3 = k2 <;> simp [alistGet, h4, ih]

theorem alistSet_keys_of_get {α : Type} (l : List (String × α))
    (k : String) (v w : α) (h : alistGet l k = some w) :
    (alistSet l k v).map Prod.fst = l.map Prod.fst := by
  induction l with
  | nil => simp [alistGet] at h
  | cons hd tl ih =>
    obtain ⟨k2, v2⟩ := hd
    by_cases h2 : k2 = k
    · simp [alistSet, h2]
    · simp only [alistGet, if_neg h2] at h
      simp [alistSet, h2, ih h]

theorem alistSet_alistSet {α : Type} (l : List (String × α))
    (k : String) (v w : α) :
    alistSet (alistSet l k v) k w = alistSet l k w := by
  induction l with
  | nil => simp [alistSet]
  | cons hd tl ih =>
    obtain ⟨k2, v2⟩ := hd
    by_cases h : k2 = k <;> simp [alistSet, h, ih]

theorem alistGet_some_alistSet {α : Type} (l : List (String × α))
    (k k2 : String) (v : α) (w : α) (h : alistGet l k = some w) :
    ∃ w2, alistGet (alistSet l k2 v) k = some w2 := by
  by_cases hk : k2 = k
  · subst hk
    exact ⟨v, alistGet_alistSet_self l k2 v⟩
  · exact ⟨w, by rw [alistGet_alistSet_ne l k2 k v hk]; exact h⟩

theorem entry_trust_set_trust (e : EventRecord) (t : String) :
    entry_trust { e with trust := t } = entry_trust e := rfl

theorem entry_trust_set_reached (e : EventRecord) (d : Finset String) :
    entry_trust { e with devices_reached := d } = entry_trust e := rfl

theorem entry_trust_congr (e e2 : EventRecord)
    (h1 : e2.authorized_node = e.authorized_node)
    (h2 : e2.packet = e.packet) (h3 : e2.cross_checks = e.cross_checks) :
    entry_trust e2 = entry_trust e := by
  simp [entry_trust, h1, h2, h3]

theorem keys_nodup_eq {α : Type} (l : List (String × α))
    (h : (l.map Prod.fst).Nodup) (k : String) (v w : α)
    (hv : (k, v) ∈ l) (hw : (k, w) ∈ l) : v = w := by
  induction l with
  | nil => cases hv
  | cons hd tl ih =>
    simp only [List.map_cons, List.nodup_cons, List.mem_map] at h
    obtain ⟨hnot, htl⟩ := h
    rcases List.mem_cons.mp hv with hv1 | hv2 <;>
      rcases List.mem_cons.mp hw with hw1 | hw2
    · rw [← hv1] at hw1
      exact (Prod.mk.injEq _ _ _ _ ▸ hw1.symm).2
    · exact absurd ⟨(k, w), hw2, by rw [← hv1]⟩ hnot
    · exact absurd ⟨(k, v), hv2, by rw [← hw1]⟩ hnot
    · exact ih htl hv2 hw2

theorem handle_packet_none (events : EventLog) (hops : HopLog)
    (my_device my_ip : String) (tnow : Int) (packet : Packet)
    (relay : Bool) (received_from_ip : String)
    (h : packet.event_id = none) :
    handle_packet events hops my_device my_ip tnow packet relay
      received_from_ip = ⟨events, hops, none⟩ := by
  simp [handle_packet, h]

theorem handle_packet_dup (events : EventLog) (hops : HopLog)
    (my_device my_ip : String) (tnow : Int) (packet : Packet)
    (relay : Bool) (received_from_ip : String) (eid : String)
    (entry : EventRecord)
    (hid : packet.event_id = some eid) (hne : ¬ eid = "")
    (hmem : alistGet events eid = some entry) :
    handle_packet events hops my_device my_ip tnow packet relay
      received_from_ip =
    ⟨alistSet events eid
       { entry with
         devices_reached := insert ((packet.device_id).getD "UNKNOWN") entry.devices_reached },
     if received_from_ip ≠ "" then
       record_hop hops eid ((packet.device_id).getD "UNKNOWN") my_device
         ((packet.hop_count).getD 0) tnow received_from_ip my_ip
     else hops,
     none⟩ := by
  simp [handle_packet, hid, hne, hmem]

theorem handle_packet_fresh (events : EventLog) (hops : HopLog)
    (my_device my_ip : String) (tnow : Int) (packet : Packet)
    (relay : Bool) (received_from_ip : String) (eid : String)
    (hid : packet.event_id = some eid) (hne : ¬ eid = "")
    (hmem : alistGet events eid = none) :
    handle_packet events hops my_device my_ip tnow packet relay
      received_from_ip =
    ⟨alistSet events eid
       (created_record my_device tnow packet (decide (received_from_ip ≠ ""))),
     if received_from_ip ≠ "" then
       record_hop hops eid ((packet.device_id).getD "UNKNOWN") my_device
         ((packet.hop_count).getD 0) tnow received_from_ip my_ip
     else hops,
     if relay then
       some { packet with hop_count := some ((packet.hop_count).getD 0 + 1),
                          device_id := some my_device }
     else none⟩ := by
  simp only [handle_packet, hid, hne, if_false, hmem, created_record]
  rw [alistSet_alistSet]
  have hct : ∀ e : EventRecord,
      calculate_trust (alistSet events eid e) eid = entry_trust e := by
    intro e
    simp [calculate_trust, alistGet_alistSet_self]
  by_cases hauth : (packet.is_authorized_node).getD false = true <;>
    simp [hauth, hct]

theorem verify_event_eq (events : EventLog) (my_device eid : String)
    (entry : EventRecord)
    (hmem : alistGet events eid = some entry)
    (horig : ¬ my_device = (entry.packet.device_id).getD "") :
    verify_event events my_device eid =
    ⟨alistSet events eid
       { entry with
         cross_checks := insert my_device entry.cross_checks,
         pending_verify := false,
         dismissed := false,
         trust := entry_trust
           { entry with
             cross_checks := insert my_device entry.cross_checks,
             pending_verify := false,
             dismissed := false } },
     200,
     some { entry.packet with hop_count := some (entry.max_hop + 1),
                              device_id := some my_device },
     some { verified_by := my_device,
            trust := entry_trust
              { entry with
                cross_checks := insert my_device entry.cross_checks,
                pending_verify := false,
                dismissed := false },
            cross_checks :=
              ((insert my_device entry.cross_checks) \
                {(entry.packet.device_id).getD ""}).card }⟩ := by
  simp only [verify_event, hmem, horig, if_false]
  rw [alistSet_alistSet]
  have hct : ∀ e : EventRecord,
      calculate_trust (alistSet events eid e) eid = entry_trust e := by
    intro e
    simp [calculate_trust, alistGet_alistSet_self]
  simp [hct]

theorem sync_event_eq (events : EventLog) (eid verified_by new_trust : String)
    (entry : EventRecord) (hmem : alistGet events eid = some entry) :
    sync_event_verification events eid verified_by new_trust =
    ⟨alistSet events eid
       { (if verified_by ≠ "" then
            { entry with cross_checks := insert verified_by entry.cross_checks }
          else entry) with
         trust := entry_trust
           (if verified_by ≠ "" then
              { entry with cross_checks := insert verified_by entry.cross_checks }
            else entry) },
     200⟩ := by
  simp only [sync_event_verification, hmem]
  rw [alistSet_alistSet]
  have hct : ∀ e : EventRecord,
      calculate_trust (alistSet events eid e) eid = entry_trust e := by
    intro e
    simp [calculate_trust, alistGet_alistSet_self]
  by_cases hv : verified_by ≠ "" <;>
    by_cases ht : new_trust = "LOW" ∨ new_trust = "MEDIUM" ∨ new_trust = "HIGH" <;>
    simp [hv, ht, hct] <;> rfl

theorem record_hop_mem (hl : HopLog) (eid fd td : String) (n : Nat) (t : Int)
    (fi ti : String) (h : (fd, td) ∈ hop_pairs hl eid) :
    record_hop hl eid fd td n t fi ti = hl := by
  simp only [record_hop]
  exact if_pos h

theorem record_hop_not_mem (hl : HopLog) (eid fd td : String) (n : Nat)
    (t : Int) (fi ti : String) (h : (fd, td) ∉ hop_pairs hl eid) :
    record_hop hl eid fd td n t fi ti =
      alistSet hl eid (hop_edges hl eid ++
        [{ from_device := fd, to_device := td, hop := n, ts := t,
           from_ip := fi, to_ip := ti }]) := by
  simp only [record_hop]
  exact if_neg h

theorem hop_edges_alistSet_self (hl : HopLog) (eid : String)
    (l : List HopEdge) : hop_edges (alistSet hl eid l) eid = l := by
  simp [hop_edges, alistGet_alistSet_self]

theorem hop_edges_alistSet_ne (hl : HopLog) (eid eid2 : String)
    (l : List HopEdge) (h : eid ≠ eid2) :
    hop_edges (alistSet hl eid l) eid2 = hop_edges hl eid2 := by
  simp [hop_edges, alistGet_alistSet_ne hl eid eid2 l h]

theorem record_hop_invariant (hl : HopLog) (eid fd td : String) (n : Nat)
    (t : Int) (fi ti : String) (h : HopInvariant hl) :
    HopInvariant (record_hop hl eid fd td n t fi ti) := by
  intro eid2
  by_cases hmem : (fd, td) ∈ hop_pairs hl eid
  · rw [record_hop_mem hl eid fd td n t fi ti hmem]
    exact h eid2
  · rw [record_hop_not_mem hl eid fd td n t fi ti hmem]
    by_cases he : eid = eid2
    · subst he
      have hpairs : hop_pairs
          (alistSet hl eid (hop_edges hl eid ++ [⟨fd, td, n, t, fi, ti⟩])) eid
          = hop_pairs hl eid ++ [(fd, td)] := by
        simp [hop_pairs, hop_edges_alistSet_self]
      rw [hpairs]
      refine (h eid).append (List.nodup_singleton _) ?_
      intro a ha hb
      simp only [List.mem_singleton] at hb
      subst hb
      exact hmem ha
    · have hsame : hop_pairs
          (alistSet hl eid (hop_edges hl eid ++ [⟨fd, td, n, t, fi, ti⟩])) eid2
          = hop_pairs hl eid2 := by
        simp [hop_pairs, hop_edges_alistSet_ne hl eid eid2 _ he]
      rw [hsame]
      exact h eid2

theorem record_hop_extends (hl : HopLog) (eid fd td : String) (n : Nat)
    (t : Int) (fi ti : String) (eid2 : String) :
    ∃ tail, hop_edges (record_hop hl eid fd td n t fi ti) eid2 =
      hop_edges hl eid2 ++ tail := by
  by_cases hmem : (fd, td) ∈ hop_pairs hl eid
  · exact ⟨[], by rw [record_hop_mem hl eid fd td n t fi ti hmem]; simp⟩
  · rw [record_hop_not_mem hl eid fd td n t fi ti hmem]
    by_cases he : eid = eid2
    · subst he
      exact ⟨[⟨fd, td, n, t, fi, ti⟩], by rw [hop_edges_alistSet_self]⟩
    · exact ⟨[], by rw [hop_edges_alistSet_ne hl eid eid2 _ he]; simp⟩

theorem record_hops_invariant (cs : List HopCall) (hl : HopLog)
    (h : HopInvariant hl) : HopInvariant (cs.foldl record_hop_call hl) := by
  induction cs generalizing hl with
  | nil => exact h
  | cons c rest ih =>
    exact ih _ (record_hop_invariant hl c.event_id c.from_device c.to_device
      c.hop_num c.tnow c.from_ip c.to_ip h)

theorem handle_packet_empty (events : EventLog) (hops : HopLog)
    (my_device my_ip : String) (tnow : Int) (packet : Packet)
    (relay : Bool) (received_from_ip : String)
    (h : packet.event_id = some "") :
    handle_packet events hops my_device my_ip tnow packet relay
      received_from_ip = ⟨events, hops, none⟩ := by
  simp [handle_packet, h]

theorem verify_event_missing (events : EventLog) (my_device eid : String)
    (hmem : alistGet events eid = none) :
    verify_event events my_device eid = ⟨events, 404, none, none⟩ := by
  simp [verify_event, hmem]

theorem verify_event_self (events : EventLog) (my_device eid : String)
    (entry : EventRecord) (hmem : alistGet events eid = some entry)
    (horig : my_device = (entry.packet.device_id).getD "") :
    verify_event events my_device eid = ⟨events, 400, none, none⟩ := by
  simp [verify_event, hmem, horig]

theorem sync_event_missing (events : EventLog) (eid v t : String)
    (hmem : alistGet events eid = none) :
    sync_event_verification events eid v t = ⟨events, 404⟩ := by
  simp [sync_event_verification, hmem]

theorem dismiss_event_missing (events : EventLog) (eid : String)
    (hmem : alistGet events eid = none) :
    dismiss_event events eid = ⟨events, 404⟩ := by
  simp [dismiss_event, hmem]

theorem dismiss_event_eq (events : EventLog) (eid : String)
    (entry : EventRecord) (hmem : alistGet events eid = some entry) :
    dismiss_event events eid =
      ⟨alistSet events eid
        { entry with pending_verify := false, dismissed := true }, 200⟩ := by
  simp [dismiss_event, hmem]

theorem authorize_event_missing (events : EventLog) (eid : String)
    (hmem : alistGet events eid = none) :
    authorize_event events eid = ⟨events, 404⟩ := by
  simp [authorize_event, hmem]

theorem authorize_event_eq (events : EventLog) (eid : String)
    (entry : EventRecord) (hmem : alistGet events eid = some entry) :
    authorize_event events eid =
      ⟨alistSet events eid
        { entry with authorized_node := true, pending_verify := false,
                     trust := "HIGH" }, 200⟩ := by
  simp [authorize_event, hmem]

theorem step_get_cases (my_device my_ip : String) (s : NodeState) (op : Op)
    (eid : String) :
    alistGet (step my_device my_ip s op).events eid = alistGet s.events eid
    ∨ (∃ entry entry2, alistGet s.events eid = some entry ∧
        alistGet (step my_device my_ip s op).events eid = some entry2 ∧
        entry2.packet = entry.packet ∧ entry2.max_hop = entry.max_hop ∧
        entry2.first_seen = entry.first_seen ∧
        ((entry2.trust = entry.trust ∧
          entry2.cross_checks = entry.cross_checks ∧
          entry2.authorized_node = entry.authorized_node)
         ∨ entry2.trust = entry_trust entry2))
    ∨ (alistGet s.events eid = none ∧
        ∃ entry2,
          alistGet (step my_device my_ip s op).events eid = some entry2 ∧
          entry2.trust = entry_trust entry2) := by
  cases op with
  | ingest p relay rfip t =>
    simp only [step]
    cases hpe : p.event_id with
    | none =>
      left
      rw [handle_packet_none s.events s.hops my_device my_ip t p relay rfip hpe]
    | some eid2 =>
      by_cases h2 : eid2 = ""
      · left
        subst h2
        rw [handle_packet_empty s.events s.hops my_device my_ip t p relay rfip
          hpe]
      · cases hget2 : alistGet s.events eid2 with
        | some e2 =>
          rw [handle_packet_dup s.events s.hops my_device my_ip t p relay rfip
            eid2 e2 hpe h2 hget2]
          by_cases he : eid2 = eid
          · subst he
            right; left
            refine ⟨e2, _, hget2, alistGet_alistSet_self _ _ _, rfl, rfl, rfl,
              Or.inl ⟨rfl, rfl, rfl⟩⟩
          · left
            exact alistGet_alistSet_ne s.events eid2 eid _ he
        | none =>
          rw [handle_packet_fresh s.events s.hops my_device my_ip t p relay
            rfip eid2 hpe h2 hget2]
          by_cases he : eid2 = eid
          · subst he
            right; right
            exact ⟨hget2, _, alistGet_alistSet_self _ _ _, rfl⟩
          · left
            exact alistGet_alistSet_ne s.events eid2 eid _ he
  | verify eid2 =>
    simp only [step]
    cases hget2 : alistGet s.events eid2 with
    | none =>
      left
      rw [verify_event_missing s.events my_device eid2 hget2]
    | some e =>
      by_cases horig : my_device = (e.packet.device_id).getD ""
      · left
        rw [verify_event_self s.events my_device eid2 e hget2 horig]
      · rw [verify_event_eq s.events my_device eid2 e hget2 horig]
        by_cases he : eid2 = eid
        · subst he
          right; left
          refine ⟨e, _, hget2, alistGet_alistSet_self _ _ _, rfl, rfl, rfl,
            Or.inr rfl⟩
        · left
          exact alistGet_alistSet_ne s.events eid2 eid _ he
  | sync eid2 v t =>
    simp only [step]
    cases hget2 : alistGet s.events eid2 with
    | none =>
      left
      rw [sync_event_missing s.events eid2 v t hget2]
    | some e =>
      rw [sync_event_eq s.events eid2 v t e hget2]
      by_cases he : eid2 = eid
      · subst he
        right; left
        refine ⟨e, _, hget2, alistGet_alistSet_self _ _ _, ?_, ?_, ?_,
          Or.inr rfl⟩ <;> by_cases hv : v ≠ "" <;> simp [hv]
      · left
        exact alistGet_alistSet_ne s.events eid2 eid _ he
  | authorize eid2 =>
    simp only [step]
    cases hget2 : alistGet s.events eid2 with
    | none =>
      left
      rw [authorize_event_missing s.events eid2 hget2]
    | some e =>
      rw [authorize_event_eq s.events eid2 e hget2]
      by_cases he : eid2 = eid
      · subst he
        right; left
        refine ⟨e, _, hget2, alistGet_alistSet_self _ _ _, rfl, rfl, rfl,
          Or.inr ?_⟩
        simp [entry_trust]
      · left
        exact alistGet_alistSet_ne s.events eid2 eid _ he
  | dismiss eid2 =>
    simp only [step]
    cases hget2 : alistGet s.events eid2 with
    | none =>
      left
      rw [dismiss_event_missing s.events eid2 hget2]
    | some e =>
      rw [dismiss_event_eq s.events eid2 e hget2]
      by_cases he : eid2 = eid
      · subst he
        right; left
        refine ⟨e, _, hget2, alistGet_alistSet_self _ _ _, rfl, rfl, rfl,
          Or.inl ⟨rfl, rfl, rfl⟩⟩
      · left
        exact alistGet_alistSet_ne s.events eid2 eid _ he

theorem TrustInvariant_nil : TrustInvariant [] := by
  intro eid entry h
  simp [alistGet] at h

theorem step_trust_invariant (my_device my_ip : String) (s : NodeState)
    (op : Op) (h : TrustInvariant s.events) :
    TrustInvariant (step my_device my_ip s op).events := by
  intro eid entry2 hget
  rcases step_get_cases my_device my_ip s op eid with heq |
    ⟨e, e2, hold, hnew, hp, hm, hf, hc⟩ | ⟨hnone, e2, hnew, ht⟩
  · rw [heq] at hget
    exact h eid entry2 hget
  · rw [hnew] at hget
    injection hget with h3
    subst h3
    rcases hc with ⟨ht, hcc, han⟩ | ht
    · rw [ht, h eid e hold]
      exact (entry_trust_congr e e2 han hp hcc).symm
    · exact ht
  · rw [hnew] at hget
    injection hget with h3
    subst h3
    exact ht

theorem steps_trust_invariant (my_device my_ip : String) (s : NodeState)
    (ops : List Op) (h : TrustInvariant s.events) :
    TrustInvariant (steps my_device my_ip s ops).events := by
  induction ops generalizing s with
  | nil => exact h
  | cons op rest ih =>
    have h2 := step_trust_invariant my_device my_ip s op h
    simpa [steps] using ih (step my_device my_ip s op) h2

theorem steps_preserve_record (my_device my_ip : String) (s : NodeState)
    (ops : List Op) (eid : String) (entry : EventRecord)
    (h : alistGet s.events eid = some entry) :
    ∃ entry2,
      alistGet (steps my_device my_ip s ops).events eid = some entry2 ∧
      entry2.packet = entry.packet ∧ entry2.max_hop = entry.max_hop ∧
      entry2.first_seen = entry.first_seen := by
  induction ops generalizing s entry with
  | nil => exact ⟨entry, h, rfl, rfl, rfl⟩
  | cons op rest ih =>
    rcases step_get_cases my_device my_ip s op eid with heq |
      ⟨e, e2, hold, hnew, hp, hm, hf, hc⟩ | ⟨hnone, e2, hnew, ht⟩
    · have h2 : alistGet (step my_device my_ip s op).events eid = some entry :=
        heq.trans h
      obtain ⟨e3, hg, hp3, hm3, hf3⟩ := ih (step my_device my_ip s op) entry h2
      exact ⟨e3, by simpa [steps] using hg, hp3, hm3, hf3⟩
    · rw [h] at hold
      injection hold with h3
      subst h3
      obtain ⟨e3, hg, hp3, hm3, hf3⟩ := ih (step my_device my_ip s op) e2 hnew
      exact ⟨e3, by simpa [steps] using hg, hp3.trans hp, hm3.trans hm,
        hf3.trans hf⟩
    · rw [h] at hnone
      simp at hnone

theorem created_record_max_hop (my_device : String) (tnow : Int) (p : Packet)
    (fp : Bool) :
    (created_record my_device tnow p fp).max_hop = (p.hop_count).getD 0 := by
  by_cases h : (p.is_authorized_node).getD false = true <;>
    simp [created_record, h]

/-- C1: ingesting a packet whose `event_id` is already stored only adds the
sender's device id to that record's `devices_reached` and relays nothing;
every other field of the record (packet, cross_checks, pending_verify,
dismissed, authorized_node, trust, max_hop, first_seen) is unchanged (the
new record is the old one with only `devices_reached` updated), all other
records are untouched, and no second record is created (the key list of the
event table is unchanged). -/
theorem C1_duplicate_only_augments_devices_reached (events : EventLog)
    (hops : HopLog) (my_device my_ip : String) (tnow : Int) (packet : Packet)
    (relay : Bool) (received_from_ip : String) (eid : String)
    (entry : EventRecord)
    (hid : packet.event_id = some eid) (hne : ¬ eid = "")
    (hmem : alistGet events eid = some entry) :
    (handle_packet events hops my_device my_ip tnow packet relay
        received_from_ip).relayed = none
    ∧ alistGet (handle_packet events hops my_device my_ip tnow packet relay
        received_from_ip).events eid = some
        { entry with
          devices_reached := insert ((packet.device_id).getD "UNKNOWN")
            entry.devices_reached }
    ∧ (∀ eid2, eid2 ≠ eid →
        alistGet (handle_packet events hops my_device my_ip tnow packet relay
          received_from_ip).events eid2 = alistGet events eid2)
    ∧ (handle_packet events hops my_device my_ip tnow packet relay
        received_from_ip).events.map Prod.fst = events.map Prod.fst := by
  rw [handle_packet_dup events hops my_device my_ip tnow packet relay
    received_from_ip eid entry hid hne hmem]
  refine ⟨rfl, alistGet_alistSet_self _ _ _, ?_, ?_⟩
  · intro eid2 h2
    exact alistGet_alistSet_ne events eid eid2 _ (Ne.symm h2)
  · exact alistSet_keys_of_get events eid _ entry hmem

/-- Witness for C1: a second packet for `"E1"` arrives at a node that
already stores `demoEntry` under `"E1"`. -/
theorem C1_duplicate_only_augments_devices_reached_witness :
    (handle_packet [("E1", demoEntry)] [] "DEVICE-B0000002" "10.0.0.1" 7
        demoPacket2 true "10.0.0.8").relayed = none
    ∧ alistGet (handle_packet [("E1", demoEntry)] [] "DEVICE-B0000002"
        "10.0.0.1" 7 demoPacket2 true "10.0.0.8").events "E1" = some
        { demoEntry with
          devices_reached := insert ((demoPacket2.device_id).getD "UNKNOWN")
            demoEntry.devices_reached } := by
  have h := C1_duplicate_only_augments_devices_reached [("E1", demoEntry)]
    [] "DEVICE-B0000002" "10.0.0.1" 7 demoPacket2 true "10.0.0.8" "E1"
    demoEntry rfl (by decide) rfl
  exact ⟨h.1, h.2.1⟩

/-- C2: for a stored event, the trust computation returns HIGH when
`authorized_node` is set; otherwise with
`n = |cross_checks ∖ {original device_id}|` it returns HIGH when `n ≥ 9`,
MEDIUM when `2 ≤ n < 9`, and LOW when `n < 2`. -/
theorem C2_trust_levels (events : EventLog) (eid : String)
    (entry : EventRecord) (h : alistGet events eid = some entry) :
    (entry.authorized_node = true → calculate_trust events eid = "HIGH")
    ∧ (entry.authorized_node = false →
        ((9 ≤ (entry.cross_checks \ {(entry.packet.device_id).getD ""}).card →
            calculate_trust events eid = "HIGH")
         ∧ (2 ≤ (entry.cross_checks \ {(entry.packet.device_id).getD ""}).card →
            (entry.cross_checks \ {(entry.packet.device_id).getD ""}).card < 9 →
            calculate_trust events eid = "MEDIUM")
         ∧ ((entry.cross_checks \ {(entry.packet.device_id).getD ""}).card < 2 →
            calculate_trust events eid = "LOW"))) := by
  simp only [calculate_trust, h, entry_trust]
  constructor
  · intro ha
    simp [ha]
  · intro ha
    simp only [ha, Bool.false_eq_true, if_false]
    refine ⟨fun h9 => ?_, fun h2 h9 => ?_, fun h2 => ?_⟩ <;>
      split_ifs <;> first | rfl | omega

/-- Witness for C2 at `demoEntry`: one cross-check besides the origin is
below the MEDIUM threshold, so trust is LOW. -/
theorem C2_trust_levels_witness :
    demoEntry.authorized_node = false
    ∧ (demoEntry.cross_checks \ {(demoEntry.packet.device_id).getD ""}).card < 2
    ∧ calculate_trust [("E1", demoEntry)] "E1" = "LOW" := by
  refine ⟨rfl, by decide, ?_⟩
  exact ((C2_trust_levels [("E1", demoEntry)] "E1" demoEntry rfl).2 rfl).2.2
    (by decide)

/-- C6: verifying an event this node originated returns HTTP 400 and leaves
the event table unchanged, with no re-broadcast frame and no sync push. -/
theorem C6_self_verify_rejected (events : EventLog) (my_device eid : String)
    (entry : EventRecord) (hmem : alistGet events eid = some entry)
    (horig : my_device = (entry.packet.device_id).getD "") :
    verify_event events my_device eid = ⟨events, 400, none, none⟩ :=
  verify_event_self events my_device eid entry hmem horig

/-- Witness for C6: the originator `DEVICE-A0000001` tries to verify its
own alert. -/
theorem C6_self_verify_rejected_witness :
    verify_event [("E1", demoEntry)] "DEVICE-A0000001" "E1" =
      ⟨[("E1", demoEntry)], 400, none, none⟩ :=
  C6_self_verify_rejected [("E1", demoEntry)] "DEVICE-A0000001" "E1"
    demoEntry rfl rfl

/-- C7: a packet with no `event_id` (absent or null, e.g. a KEEPALIVE
frame) makes `handle_packet` return with no effect: the event table and the
hop log are unchanged (no record created or modified, no hop edge
recorded) and nothing is relayed. -/
theorem C7_no_event_id_dropped (events : EventLog) (hops : HopLog)
    (my_device my_ip : String) (tnow : Int) (packet : Packet)
    (relay : Bool) (received_from_ip : String)
    (h : packet.event_id = none) :
    handle_packet events hops my_device my_ip tnow packet relay
      received_from_ip = ⟨events, hops, none⟩ :=
  handle_packet_none events hops my_device my_ip tnow packet relay
    received_from_ip h

/-- Witness for C7 at the concrete KEEPALIVE frame shape of
`build_keepalive_packet`. -/
theorem C7_no_event_id_dropped_witness :
    handle_packet [("E1", demoEntry)] [] "DEVICE-B0000002" "10.0.0.1" 9
      { event_id := none, ptype := "KEEPALIVE", timestamp := 9,
        device_id := some "DEVICE-C0000003", hop_count := some 0,
        is_authorized_node := none, description := "", location := "" }
      true "10.0.0.8" = ⟨[("E1", demoEntry)], [], none⟩ :=
  C7_no_event_id_dropped [("E1", demoEntry)] [] "DEVICE-B0000002" "10.0.0.1"
    9 _ true "10.0.0.8" rfl

/-- C10: verifying a stored event not originated by this node succeeds even
when the event was previously dismissed: status 200, this node's device id
is added to `cross_checks`, and both `pending_verify` and `dismissed` are
set to false — the Dismissed state is not terminal for verification. -/
theorem C10_verify_overrides_dismissed (events : EventLog)
    (my_device eid : String) (entry : EventRecord)
    (hmem : alistGet events eid = some entry)
    (horig : ¬ my_device = (entry.packet.device_id).getD "") :
    (verify_event events my_device eid).status = 200
    ∧ (alistGet (verify_event events my_device eid).events eid).map
        (fun e => (e.cross_checks, e.pending_verify, e.dismissed))
      = some (insert my_device entry.cross_checks, false, false) := by
  rw [verify_event_eq events my_device eid entry hmem horig]
  refine ⟨rfl, ?_⟩
  rw [alistGet_alistSet_self]
  rfl

/-- Witness for C10: node B verifies the dismissed event `demoDismissed`. -/
theorem C10_verify_overrides_dismissed_witness :
    demoDismissed.dismissed = true
    ∧ (verify_event [("E1", demoDismissed)] "DEVICE-B0000002" "E1").status
        = 200
    ∧ (alistGet (verify_event [("E1", demoDismissed)] "DEVICE-B0000002"
          "E1").events "E1").map
        (fun e => (e.cross_checks, e.pending_verify, e.dismissed))
      = some (insert "DEVICE-B0000002" demoDismissed.cross_checks, false,
          false) := by
  have h := C10_verify_overrides_dismissed [("E1", demoDismissed)]
    "DEVICE-B0000002" "E1" demoDismissed rfl (by decide)
  exact ⟨rfl, h.1, h.2⟩

/-- C4: in any run of the node from startup, after every sequence of
event-table mutations (fresh ingest, duplicate ingest, verify, sync,
authorize, dismiss) every stored record's `trust` equals the pure trust
function of its current `authorized_node` and
`cross_checks ∖ {original device_id}`; moreover the event table produced by
the `/sync` handler does not depend on the trust value pushed in the body —
it is recomputed locally, never stored verbatim. -/
theorem C4_trust_always_recomputed :
    (∀ my_device my_ip ops,
      TrustInvariant (run my_device my_ip ops).events)
    ∧ (∀ events eid v t t2,
        (sync_event_verification events eid v t).events =
        (sync_event_verification events eid v t2).events) := by
  constructor
  · intro my_device my_ip ops
    exact steps_trust_invariant my_device my_ip ⟨[], []⟩ ops TrustInvariant_nil
  · intro events eid v t t2
    cases hget : alistGet events eid with
    | none =>
      rw [sync_event_missing events eid v t hget,
          sync_event_missing events eid v t2 hget]
    | some e =>
      rw [sync_event_eq events eid v t e hget,
          sync_event_eq events eid v t2 e hget]

/-- Witness for C4 at `demoRun` (a peer pushed trust `"HIGH"` through
`/sync`, but the stored record carries the locally recomputed `"LOW"`). -/
theorem C4_trust_always_recomputed_witness :
    alistGet demoRun.events "E1" = some demoEntry
    ∧ demoEntry.trust = entry_trust demoEntry := by
  refine ⟨by decide, ?_⟩
  exact C4_trust_always_recomputed.1 "DEVICE-B0000002" "10.0.0.1"
    [Op.ingest demoPacket true "10.0.0.9" 0,
     Op.sync "E1" "DEVICE-V0000001" "HIGH"] "E1" demoEntry (by decide)

/-- C5 counterexample: a node ingests `demoPacket` (hop 0) creating the
record for `"E1"`, then ingests `demoPacket2` (hop 5) for the same event;
the stored `max_hop` is still 0, not the highest observed hop count 5, so
`max_hop` is not the maximum over all packets observed. -/
theorem C5_counterexample :
    (alistGet (run "DEVICE-B0000002" "10.0.0.1"
        [Op.ingest demoPacket true "10.0.0.9" 0,
         Op.ingest demoPacket2 true "10.0.0.8" 1]).events "E1").map
      (fun e => e.max_hop) = some 0
    ∧ (demoPacket2.hop_count).getD 0 = 5
    ∧ ¬ (0 : Nat) = 5 := by
  decide

/-- C5 (amended): a stored record's `max_hop` equals the `hop_count` of the
packet that created the record (the first packet observed for the event),
and no later operation — in particular no later ingest, whatever its hop
count — ever changes it. -/
theorem C5_max_hop_is_creation_hop (events : EventLog) (hops : HopLog)
    (my_device my_ip : String) (tnow : Int) (packet : Packet)
    (relay : Bool) (received_from_ip : String) (eid : String) (ops : List Op)
    (hid : packet.event_id = some eid) (hne : ¬ eid = "")
    (hmem : alistGet events eid = none) :
    ∃ entry2,
      alistGet (steps my_device my_ip
        ⟨(handle_packet events hops my_device my_ip tnow packet relay
            received_from_ip).events,
         (handle_packet events hops my_device my_ip tnow packet relay
            received_from_ip).hops⟩ ops).events eid = some entry2 ∧
      entry2.max_hop = (packet.hop_count).getD 0 := by
  have hfr := handle_packet_fresh events hops my_device my_ip tnow packet
    relay received_from_ip eid hid hne hmem
  have hget : alistGet (handle_packet events hops my_device my_ip tnow packet
      relay received_from_ip).events eid = some
      (created_record my_device tnow packet
        (decide (received_from_ip ≠ ""))) := by
    rw [hfr]
    exact alistGet_alistSet_self _ _ _
  obtain ⟨e2, hg, hp, hm, hf⟩ := steps_preserve_record my_device my_ip
    ⟨(handle_packet events hops my_device my_ip tnow packet relay
        received_from_ip).events,
     (handle_packet events hops my_device my_ip tnow packet relay
        received_from_ip).hops⟩ ops eid _ hget
  exact ⟨e2, hg, by rw [hm, created_record_max_hop]⟩

/-- Witness for C5 (amended): after the duplicate ingest of `demoPacket2`
the record still carries the creating packet's hop count. -/
theorem C5_max_hop_is_creation_hop_witness :
    ∃ entry2,
      alistGet (steps "DEVICE-B0000002" "10.0.0.1"
        ⟨(handle_packet [] [] "DEVICE-B0000002" "10.0.0.1" 0 demoPacket true
            "10.0.0.9").events,
         (handle_packet [] [] "DEVICE-B0000002" "10.0.0.1" 0 demoPacket true
            "10.0.0.9").hops⟩
        [Op.ingest demoPacket2 true "10.0.0.8" 1]).events "E1" = some entry2 ∧
      entry2.max_hop = (demoPacket.hop_count).getD 0 :=
  C5_max_hop_is_creation_hop [] [] "DEVICE-B0000002" "10.0.0.1" 0 demoPacket
    true "10.0.0.9" "E1" [Op.ingest demoPacket2 true "10.0.0.8" 1] rfl
    (by decide) rfl

/-- C3 counterexample: node `DEVICE-B0000002` originates via
`POST /api/broadcast` with client-supplied `device_id =
"DEVICE-A0000001"`; the frame handed to `relay_to_peers` carries
`hop_count = 1` but its `device_id` is the node's own id, not the
client-supplied one — the device_id is rewritten before the first relay. -/
theorem C3_counterexample :
    ((api_broadcast [] [] "DEVICE-B0000002" "10.0.0.1" 0
        { event_id := "E1", btype := "FIRE",
          device_id := "DEVICE-A0000001", timestamp := none,
          is_authorized_node := none, description := "", location := "" }).relayed).map
      (fun q => ((q.hop_count).getD 0, (q.device_id).getD ""))
      = some (1, "DEVICE-B0000002")
    ∧ ¬ ("DEVICE-B0000002" : String) = "DEVICE-A0000001" := by
  exact ⟨by decide, by decide⟩

/-- C3 (amended): a fresh origination via `POST /api/broadcast` relays a
frame with `hop_count = 1` and `device_id` rewritten to the node's own
device id (so the relayed frame carries the client-supplied id only when
the client supplied this node's own id). -/
theorem C3_first_relay_rewrites_device (events : EventLog) (hops : HopLog)
    (my_device my_ip : String) (tnow : Int) (d : BroadcastData)
    (hne : ¬ d.event_id = "")
    (hfresh : alistGet events d.event_id = none) :
    (api_broadcast events hops my_device my_ip tnow d).relayed =
      some { broadcast_build d tnow with hop_count := some 1,
                                         device_id := some my_device } := by
  have h := handle_packet_fresh events hops my_device my_ip tnow
    (broadcast_build d tnow) true "" d.event_id rfl hne hfresh
  simp only [api_broadcast, h]
  rfl

/-- Witness for C3 (amended) at `demoBroadcast`. -/
theorem C3_first_relay_rewrites_device_witness :
    (api_broadcast [] [] "DEVICE-B0000002" "10.0.0.1" 0
        demoBroadcast).relayed =
      some { broadcast_build demoBroadcast 0 with
             hop_count := some 1,
             device_id := some "DEVICE-B0000002" } :=
  C3_first_relay_rewrites_device [] [] "DEVICE-B0000002" "10.0.0.1" 0
    demoBroadcast (by decide) rfl

/-- C9: starting from an empty hop log, after any sequence of `record_hop`
calls no two stored edges of any event share the same
`(from_device, to_device)` pair; a call whose pair is already stored for
its event leaves the whole log unchanged (the later call is discarded),
and no call ever removes or alters stored edges (edges are only appended),
so the first edge recorded for a pair is the one kept. -/
theorem C9_hop_edge_dedupe (cs : List HopCall) (eid : String) :
    (hop_pairs (cs.foldl record_hop_call []) eid).Nodup
    ∧ (∀ hl c, (c.from_device, c.to_device) ∈ hop_pairs hl c.event_id →
        record_hop_call hl c = hl)
    ∧ (∀ hl c eid2, ∃ tail,
        hop_edges (record_hop_call hl c) eid2 = hop_edges hl eid2 ++ tail) := by
  refine ⟨?_, ?_, ?_⟩
  · exact record_hops_invariant cs []
      (fun e => by simp [hop_pairs, hop_edges, alistGet]) eid
  · intro hl c h
    exact record_hop_mem hl c.event_id c.from_device c.to_device c.hop_num
      c.tnow c.from_ip c.to_ip h
  · intro hl c eid2
    exact record_hop_extends hl c.event_id c.from_device c.to_device
      c.hop_num c.tnow c.from_ip c.to_ip eid2

/-- Witness for C9: recording the same edge twice stores it once and the
second call is a no-op. -/
theorem C9_hop_edge_dedupe_witness :
    (hop_pairs ([demoHop, demoHop].foldl record_hop_call []) "E1").Nodup
    ∧ record_hop_call (record_hop_call [] demoHop) demoHop =
        record_hop_call [] demoHop := by
  refine ⟨(C9_hop_edge_dedupe [demoHop, demoHop] "E1").1, ?_⟩
  exact (C9_hop_edge_dedupe [] "E1").2.1 (record_hop_call [] demoHop) demoHop
    (by decide)

/-- C8 counterexample: `"10.0.0.5"` is both a manual peer and an
auto-discovered peer whose `last_seen` lies `PEER_TIMEOUT` or more in the
past (`100 - 0 ≥ 30`), yet it is in `get_all_known_peers` — so the relay
target set can contain an auto-discovered peer with a stale `last_seen`. -/
theorem C8_counterexample :
    ("10.0.0.5", (0 : Int)) ∈ [("10.0.0.5", (0 : Int))]
    ∧ PEER_TIMEOUT ≤ (100 : Int) - 0
    ∧ "10.0.0.5" ∈ get_all_known_peers [("10.0.0.5", 0)] ["10.0.0.5"] [] 100 := by
  decide

/-- C8 (amended): `get_all_known_peers` never contains one of the node's
own local IPs; an auto-discovered entry whose `last_seen` is `PEER_TIMEOUT`
or more in the past contributes nothing, so a stale auto-discovered IP is
in the result only when it is also a manual peer; and the
`discovered_peers` list of `GET /api/peers` applies the same staleness
filter. -/
theorem C8_peer_filtering (dp : List (String × Int)) (mp mi : List String)
    (now : Int) :
    (∀ ip, ip ∈ get_all_known_peers dp mp mi now → ip ∉ mi)
    ∧ (∀ ip ts, (dp.map Prod.fst).Nodup → (ip, ts) ∈ dp →
        PEER_TIMEOUT ≤ now - ts → ip ∉ mp →
        ip ∉ get_all_known_peers dp mp mi now)
    ∧ (∀ ip ts, (dp.map Prod.fst).Nodup → (ip, ts) ∈ dp →
        PEER_TIMEOUT ≤ now - ts → ip ∉ get_peers_discovered dp now) := by
  refine ⟨?_, ?_, ?_⟩
  · intro ip hip
    simp only [get_all_known_peers, List.mem_dedup, List.mem_append,
      List.mem_map, List.mem_filter, decide_eq_true_eq] at hip
    rcases hip with ⟨p, ⟨hpdp, hfresh, hnmi⟩, hfst⟩ | ⟨hmp, hnmi⟩
    · exact hfst ▸ hnmi
    · exact hnmi
  · intro ip ts hnodup hdp hstale hnmp hip
    simp only [get_all_known_peers, List.mem_dedup, List.mem_append,
      List.mem_map, List.mem_filter, decide_eq_true_eq] at hip
    rcases hip with ⟨p, ⟨hpdp, hfresh, hnmi⟩, hfst⟩ | ⟨hmp, hnmi⟩
    · obtain ⟨p1, p2⟩ := p
      simp only at hfst
      subst hfst
      have := keys_nodup_eq dp hnodup p1 p2 ts hpdp hdp
      omega
    · exact hnmp hmp
  · intro ip ts hnodup hdp hstale hip
    simp only [get_peers_discovered, List.mem_map, List.mem_filter,
      decide_eq_true_eq] at hip
    obtain ⟨p, ⟨hpdp, hfresh⟩, hfst⟩ := hip
    obtain ⟨p1, p2⟩ := p
    simp only at hfst
    subst hfst
    have := keys_nodup_eq dp hnodup p1 p2 ts hpdp hdp
    omega

/-- Witness for C8 (amended): a stale, non-manual auto-discovered peer and
a local IP are both excluded at a concrete registry state. -/
theorem C8_peer_filtering_witness :
    "10.0.0.7" ∉ get_all_known_peers [("10.0.0.7", 0), ("10.0.0.9", 95)]
        ["10.0.0.3"] ["192.168.1.4"] 100
    ∧ "10.0.0.7" ∉ get_peers_discovered [("10.0.0.7", 0), ("10.0.0.9", 95)]
        100
    ∧ "192.168.1.4" ∉ get_all_known_peers [("10.0.0.7", 0), ("10.0.0.9", 95)]
        ["10.0.0.3"] ["192.168.1.4"] 100 := by
  have h := C8_peer_filtering [("10.0.0.7", 0), ("10.0.0.9", 95)]
    ["10.0.0.3"] ["192.168.1.4"] 100
  refine ⟨h.2.1 "10.0.0.7" 0 (by decide) (by decide) (by decide) (by decide),
    h.2.2 "10.0.0.7" 0 (by decide) (by decide) (by decide), ?_⟩
  intro hmem
  exact absurd (by decide : ("192.168.1.4" : String) ∈ ["192.168.1.4"])
    (h.1 "192.168.1.4" hmem)

end MeshSentinel
